import Mathlib

/-!
A verification of the Minesweeper rules engine in `src/main.rs` of
`rusty-mines`: the data model, grid generation with mine injection,
adjacency computation, win detection, and the two state-transition
functions `open_cell` and `change_flag`, together with theorems
characterising their behavior.
-/

namespace RustyMines

/-- `type Point = (usize, usize)`: `(x, y)` = (column, row). -/
abbrev Point : Type := Nat × Nat

/-- `enum Flag { Unflagged, Unsure, Sure }` -/
inductive Flag where
  | Unflagged
  | Unsure
  | Sure
  deriving DecidableEq

/-- `enum CellType { Empty { adjacent_mines: u8 }, Mine }`.
`adjacent_mines` is a `u8` in the source; the generator only ever
increments it once per distinct neighboring mine, so it stays at most 8
(proved below) and `Nat` arithmetic coincides with `u8` arithmetic on
every value the program produces. -/
inductive CellType where
  | Empty (adjacent_mines : Nat)
  | Mine
  deriving DecidableEq

/-- `enum CellState { Opened, Unopened(Flag) }` -/
inductive CellState where
  | Opened
  | Unopened (flag : Flag)
  deriving DecidableEq

/-- `struct Cell { cell_type: CellType, state: CellState }` -/
structure Cell where
  cell_type : CellType
  state : CellState
  deriving DecidableEq

/-- `enum GameStatus { InProgress, Lost, Won }` -/
inductive GameStatus where
  | InProgress
  | Lost
  | Won
  deriving DecidableEq

/-- `struct GameState { status: GameStatus, grid: Vec<Vec<Cell>> }` -/
structure GameState where
  status : GameStatus
  grid : List (List Cell)
  deriving DecidableEq

/-- The Rust read `grid[y][x]` as an `Option`: `none` models the fatal
out-of-bounds index (the source indexes `Vec` directly, which aborts
when the coordinate is out of bounds). -/
def cellAt (grid : List (List Cell)) (x y : Nat) : Option Cell :=
  grid[y]?.bind fun row => row[x]?

/-- The cell every position starts from in `initial_state`:
`Cell { cell_type: Empty { adjacent_mines: 0 }, state: Unopened(Unflagged) }`. -/
def emptyCell : Cell :=
  { cell_type := CellType.Empty 0, state := CellState.Unopened Flag.Unflagged }

/-- Total variant of the read `grid[y][x]`, used to embed the reads inside
`initial_state`, all of which the source performs only at coordinates that
are in bounds (so the default is never hit there). -/
def cellAtD (grid : List (List Cell)) (x y : Nat) : Cell :=
  (grid.getD y []).getD x emptyCell

/-- The Rust write `grid[y][x] = c` (in bounds in all uses; out of bounds
this is a no-op since `List.set` is). -/
def setCell (grid : List (List Cell)) (x y : Nat) (c : Cell) : List (List Cell) :=
  grid.set y ((grid.getD y []).set x c)

/-- The Rust half-open range `a..b` collected to a list. -/
def rangeFromTo (a b : Nat) : List Nat := List.range' a (b - a)

/-- `fn find_adjacent(x, y, width, height) -> Vec<Point>`: the cartesian
product of the clipped x-range and y-range (itertools `cartesian_product`
iterates the first list in the outer loop), minus the point itself. -/
def find_adjacent (x y width height : Nat) : List Point :=
  let xs := rangeFromTo (if x = 0 then 0 else x - 1) (min (x + 2) width)
  let ys := rangeFromTo (if y = 0 then 0 else y - 1) (min (y + 2) height)
  (xs ×ˢ ys).filter fun p => x != p.1 || y != p.2

/-- The match arm inside `is_game_won`, one case per Rust pattern. -/
def wonCell : Cell → Bool
  | { cell_type := CellType.Empty _, state := CellState.Opened } => true
  | { cell_type := CellType.Empty _, state := CellState.Unopened _ } => false
  | { cell_type := CellType.Mine, state := _ } => true

/-- `fn is_game_won(grid: &Vec<Vec<Cell>>) -> bool`. -/
def is_game_won (grid : List (List Cell)) : Bool :=
  grid.flatten.all wonCell

/-- `fn open_cell(state: GameState, point: Point) -> GameState`.
The result is `none` exactly when the source would abort on an
out-of-bounds index. -/
def open_cell (state : GameState) (point : Point) : Option GameState :=
  match state.status with
  | GameStatus.InProgress =>
    match cellAt state.grid point.1 point.2 with
    | none => none
    | some cell =>
      match cell.state with
      | CellState.Opened => some { status := state.status, grid := state.grid }
      | CellState.Unopened _ =>
        let grid' := setCell state.grid point.1 point.2 { cell with state := CellState.Opened }
        match cell.cell_type with
        | CellType.Mine => some { status := GameStatus.Lost, grid := grid' }
        | CellType.Empty _ =>
          some { status := if is_game_won grid' then GameStatus.Won
                           else GameStatus.InProgress,
                 grid := grid' }
  | _ => some { status := state.status, grid := state.grid }

/-- `fn change_flag(state: GameState, point: Point, flag: Flag) -> GameState`. -/
def change_flag (state : GameState) (point : Point) (flag : Flag) : Option GameState :=
  match state.status with
  | GameStatus.InProgress =>
    match cellAt state.grid point.1 point.2 with
    | none => none
    | some cell =>
      match cell.state with
      | CellState.Opened => some { status := state.status, grid := state.grid }
      | CellState.Unopened _ =>
        let grid' := setCell state.grid point.1 point.2
          { cell with state := CellState.Unopened flag }
        some { status := if is_game_won grid' then GameStatus.Won
                         else GameStatus.InProgress,
               grid := grid' }
  | _ => some { status := state.status, grid := state.grid }

/-- The grid allocated at the start of `initial_state`: `height` rows of
`width` copies of `emptyCell`. -/
def initGrid (width height : Nat) : List (List Cell) :=
  List.replicate height (List.replicate width emptyCell)

/-- One iteration of the inner `for &(x, y) in adj.iter()` loop of
`initial_state`: increment `adjacent_mines` if the cell is still `Empty`,
leave `Mine` cells alone. -/
def incAdjacent (grid : List (List Cell)) (p : Point) : List (List Cell) :=
  match (cellAtD grid p.1 p.2).cell_type with
  | CellType.Empty adjacent_mines =>
      setCell grid p.1 p.2
        { cellAtD grid p.1 p.2 with cell_type := CellType.Empty (adjacent_mines + 1) }
  | CellType.Mine => grid

/-- One iteration of the outer `for &(mine_x, mine_y) in mines.iter()` loop
of `initial_state`: turn the cell into a `Mine` (preserving its state via
`..mine`), then bump every adjacent cell. -/
def injectMine (width height : Nat) (grid : List (List Cell)) (m : Point) :
    List (List Cell) :=
  (find_adjacent m.1 m.2 width height).foldl incAdjacent
    (setCell grid m.1 m.2 { cellAtD grid m.1 m.2 with cell_type := CellType.Mine })

/-- `fn initial_state(width, height, mines) -> GameState`, parametrised by
the outcome of the random draws: `random_coordinates` returns the elements
of a `HashSet` built from in-bounds samples, i.e. a duplicate-free list of
in-bounds coordinates in an unspecified order, which is passed in here as
`mines`. -/
def initial_state (width height : Nat) (mines : List Point) : GameState :=
  { status := GameStatus.InProgress,
    grid := mines.foldl (injectMine width height) (initGrid width height) }

/-- One iteration of the `while coordinates.len() < count` loop of
`random_coordinates`: insert the drawn coordinate into the set. -/
def rcInsert (s : Finset Point) (draw : Point) : Finset Point := insert draw s

/-- The coordinate set accumulated by the `random_coordinates` loop after
consuming the draws in `draws`; each draw `(width.sample(..), height.sample(..))`
is always in bounds. -/
def rcAccum (draws : List Point) : Finset Point := draws.foldl rcInsert ∅

/-- The frame relation of C8 between a state `s` and a successor `s'`
produced by acting on the cell `(x, y)`: same dimensions, all other cells
untouched, and even at `(x, y)` the content is unchanged. -/
def FrameRel (s s' : GameState) (x y : Nat) : Prop :=
  s'.grid.length = s.grid.length ∧
  (∀ i : Nat, s'.grid[i]?.map List.length = s.grid[i]?.map List.length) ∧
  (∀ a b, ¬(a = x ∧ b = y) → cellAt s'.grid a b = cellAt s.grid a b) ∧
  (cellAt s'.grid x y).map Cell.cell_type = (cellAt s.grid x y).map Cell.cell_type

/-- Two cells that agree on everything except possibly the `Flag` carried
inside an `Unopened` state. -/
def CellFlagEq (c₁ c₂ : Cell) : Prop :=
  c₁.cell_type = c₂.cell_type ∧
  (c₁.state = CellState.Opened ↔ c₂.state = CellState.Opened)

/-- Two grids that agree on everything except flags on unopened cells. -/
def GridFlagEq (g₁ g₂ : List (List Cell)) : Prop :=
  List.Forall₂ (List.Forall₂ CellFlagEq) g₁ g₂

/-- The grid is `h` rows of `w` cells, as allocated by `initial_state`. -/
def gridShape (w h : Nat) (g : List (List Cell)) : Prop :=
  g.length = h ∧ ∀ row ∈ g, row.length = w

/-- The effect of one `adjacent_mines` increment on a cell value. -/
def bump (c : Cell) : Cell :=
  match c.cell_type with
  | CellType.Empty n => { c with cell_type := CellType.Empty (n + 1) }
  | CellType.Mine => c

/-- The cell the generator ends up with at `(x, y)`: a mine if `(x, y)` was
drawn, otherwise an empty cell counting the drawn coordinates adjacent to
it; always still unopened and unflagged. -/
def genCell (w h : Nat) (mines : List Point) (x y : Nat) : Cell :=
  if (x, y) ∈ mines then
    { cell_type := CellType.Mine, state := CellState.Unopened Flag.Unflagged }
  else
    { cell_type := CellType.Empty
        (mines.countP fun m => decide ((x, y) ∈ find_adjacent m.1 m.2 w h)),
      state := CellState.Unopened Flag.Unflagged }

/-- All in-bounds coordinates, row by row (the iteration order of the
generated grid's flattening). -/
def ptsList (w h : Nat) : List Point :=
  (List.range h).flatMap fun y => (List.range w).map fun x => (x, y)

/-! ### Basic lemmas about the grid accessors -/

theorem cellAt_setCell_self {g : List (List Cell)} {x y : Nat} {c₀ : Cell} (c : Cell)
    (h : cellAt g x y = some c₀) :
    cellAt (setCell g x y c) x y = some c := by
  unfold cellAt setCell at *
  cases hy : g[y]? with
  | none => rw [hy] at h; exact Option.noConfusion h
  | some row =>
    rw [hy] at h
    simp only [Option.some_bind] at h
    have hylt : y < g.length := (List.getElem?_eq_some_iff.mp hy).1
    have hrow : g.getD y [] = row := by
      simp [List.getD_eq_getElem?_getD, hy]
    have hxlt : x < row.length := (List.getElem?_eq_some_iff.mp h).1
    rw [hrow]
    rw [List.getElem?_set_self (by simpa using hylt)]
    simp [List.getElem?_set_self (by simpa using hxlt)]

theorem cellAt_setCell_ne {g : List (List Cell)} {x y x' y' : Nat} (c : Cell)
    (h : ¬(x' = x ∧ y' = y)) :
    cellAt (setCell g x y c) x' y' = cellAt g x' y' := by
  unfold cellAt setCell
  by_cases hy : y' = y
  · subst hy
    have hx : x' ≠ x := fun hx => h ⟨hx, rfl⟩
    cases hylt : Nat.decLt y' g.length with
    | isTrue hlt =>
      rw [List.getElem?_set_self (by simpa using hlt)]
      rw [List.getElem?_eq_getElem hlt]
      have hrow : g.getD y' [] = g[y'] := by
        simp [List.getD_eq_getElem?_getD, List.getElem?_eq_getElem hlt]
      rw [hrow]
      simp [List.getElem?_set_ne (fun hxx => hx hxx.symm)]
    | isFalse hge =>
      have h1 : (g.set y' ((g.getD y' []).set x c))[y']? = none := by
        apply List.getElem?_eq_none
        simpa using Nat.le_of_not_lt hge
      have h2 : g[y']? = none := List.getElem?_eq_none (Nat.le_of_not_lt hge)
      rw [h1, h2]
  · rw [List.getElem?_set_ne (fun hyy => hy hyy.symm)]

theorem length_setCell (g : List (List Cell)) (x y : Nat) (c : Cell) :
    (setCell g x y c).length = g.length := by
  simp [setCell]

/-! ### Claim theorems: win evaluation and terminal absorption -/

/-- C3: `is_game_won grid` is true iff every cell whose content is `Empty`
has state `Opened`; flags and mine reveal states are irrelevant.  A grid
with zero mines and all cells opened is won; a grid with one unopened
`Empty` cell is not won even if its mines remain untouched. -/
theorem is_game_won_iff :
    (∀ grid : List (List Cell), is_game_won grid = true ↔
      ∀ c ∈ grid.flatten, ∀ n, c.cell_type = CellType.Empty n →
        c.state = CellState.Opened)
    ∧ is_game_won [[{ cell_type := CellType.Empty 0, state := CellState.Opened },
                    { cell_type := CellType.Empty 0, state := CellState.Opened }]] = true
    ∧ is_game_won [[{ cell_type := CellType.Mine,
                      state := CellState.Unopened Flag.Unflagged },
                    { cell_type := CellType.Empty 1,
                      state := CellState.Unopened Flag.Unflagged }]] = false := by
  refine ⟨fun grid => ?_, by decide, by decide⟩
  unfold is_game_won
  rw [List.all_eq_true]
  constructor
  · intro h c hc n hct
    have := h c hc
    obtain ⟨ct, st⟩ := c
    cases ct with
    | Empty m =>
      cases st with
      | Opened => rfl
      | Unopened f => simp [wonCell] at this
    | Mine => simp at hct
  · intro h c hc
    obtain ⟨ct, st⟩ := c
    cases ct with
    | Empty m =>
      have := h _ hc m rfl
      simp only at this
      rw [this]
      rfl
    | Mine => rfl

/-- C5: `Lost` and `Won` are absorbing: both `open_cell` and `change_flag`
return the state unchanged (for any coordinate and flag) when the status is
terminal. -/
theorem terminal_absorbing (s : GameState) (p : Point) (f : Flag)
    (h : s.status = GameStatus.Lost ∨ s.status = GameStatus.Won) :
    open_cell s p = some s ∧ change_flag s p f = some s := by
  obtain ⟨st, g⟩ := s
  cases st with
  | InProgress => simp at h
  | Lost => exact ⟨rfl, rfl⟩
  | Won => exact ⟨rfl, rfl⟩

/-- Witness for C5 at a concrete lost 1×1 state. -/
theorem terminal_absorbing_witness :
    open_cell { status := GameStatus.Lost, grid := [[emptyCell]] } (0, 0)
      = some { status := GameStatus.Lost, grid := [[emptyCell]] } ∧
    change_flag { status := GameStatus.Lost, grid := [[emptyCell]] } (0, 0) Flag.Sure
      = some { status := GameStatus.Lost, grid := [[emptyCell]] } :=
  terminal_absorbing { status := GameStatus.Lost, grid := [[emptyCell]] } (0, 0)
    Flag.Sure (Or.inl rfl)

/-- Unpacking of a successful nested read. -/
theorem cellAt_eq_some_iff {g : List (List Cell)} {x y : Nat} {c : Cell} :
    cellAt g x y = some c ↔ ∃ row, g[y]? = some row ∧ row[x]? = some c := by
  unfold cellAt
  cases hy : g[y]? with
  | none => simp
  | some row => simp

/-- C1: opening an `Unopened` in-bounds cell of an `InProgress` state opens
exactly that cell (content preserved) and the new status is `Lost` on a
mine, otherwise `Won` or `InProgress` according to `is_game_won` of the
updated grid. -/
theorem open_cell_unopened (s : GameState) (x y : Nat) (cell : Cell) (f : Flag)
    (hs : s.status = GameStatus.InProgress)
    (hc : cellAt s.grid x y = some cell)
    (hu : cell.state = CellState.Unopened f) :
    open_cell s (x, y)
      = some { status :=
                 match cell.cell_type with
                 | CellType.Mine => GameStatus.Lost
                 | CellType.Empty _ =>
                     if is_game_won (setCell s.grid x y { cell with state := CellState.Opened })
                     then GameStatus.Won else GameStatus.InProgress,
               grid := setCell s.grid x y { cell with state := CellState.Opened } }
    ∧ cellAt (setCell s.grid x y { cell with state := CellState.Opened }) x y
        = some { cell_type := cell.cell_type, state := CellState.Opened } := by
  refine ⟨?_, cellAt_setCell_self _ hc⟩
  obtain ⟨st, g⟩ := s
  obtain rfl : st = GameStatus.InProgress := hs
  obtain ⟨ct, cst⟩ := cell
  obtain rfl : cst = CellState.Unopened f := hu
  cases ct with
  | Mine => simp [open_cell, hc]
  | Empty n => simp [open_cell, hc]

/-- Witness for C1 on the 1×1 all-mine board. -/
theorem open_cell_unopened_witness :
    open_cell { status := GameStatus.InProgress,
                grid := [[{ cell_type := CellType.Mine,
                            state := CellState.Unopened Flag.Unflagged }]] } (0, 0)
      = some { status := GameStatus.Lost,
               grid := setCell [[{ cell_type := CellType.Mine,
                                   state := CellState.Unopened Flag.Unflagged }]] 0 0
                         { cell_type := CellType.Mine, state := CellState.Opened } } ∧
    cellAt (setCell [[{ cell_type := CellType.Mine,
                        state := CellState.Unopened Flag.Unflagged }]] 0 0
              { cell_type := CellType.Mine, state := CellState.Opened }) 0 0
      = some { cell_type := CellType.Mine, state := CellState.Opened } :=
  open_cell_unopened
    { status := GameStatus.InProgress,
      grid := [[{ cell_type := CellType.Mine,
                  state := CellState.Unopened Flag.Unflagged }]] }
    0 0 { cell_type := CellType.Mine, state := CellState.Unopened Flag.Unflagged }
    Flag.Unflagged rfl rfl rfl

/-- C6: `open_cell` is idempotent, and opening an already-opened cell of an
`InProgress` state is a no-op. -/
theorem open_cell_idem (s s' : GameState) (p : Point)
    (h : open_cell s p = some s') :
    open_cell s' p = some s' ∧
    (s.status = GameStatus.InProgress →
      ∀ c, cellAt s.grid p.1 p.2 = some c → c.state = CellState.Opened → s' = s) := by
  obtain ⟨st, g⟩ := s
  cases st with
  | Lost =>
    obtain rfl := Option.some_inj.mp (h : some (⟨GameStatus.Lost, g⟩ : GameState) = some s')
    exact ⟨rfl, fun hst => by simp at hst⟩
  | Won =>
    obtain rfl := Option.some_inj.mp (h : some (⟨GameStatus.Won, g⟩ : GameState) = some s')
    exact ⟨rfl, fun hst => by simp at hst⟩
  | InProgress =>
    cases hc : cellAt g p.1 p.2 with
    | none =>
      rw [show open_cell ⟨GameStatus.InProgress, g⟩ p = none by
        simp [open_cell, hc]] at h
      exact Option.noConfusion h
    | some cell =>
      obtain ⟨ct, cst⟩ := cell
      cases cst with
      | Opened =>
        have he : open_cell ⟨GameStatus.InProgress, g⟩ p
            = some ⟨GameStatus.InProgress, g⟩ := by simp [open_cell, hc]
        rw [he] at h
        obtain rfl := Option.some_inj.mp h
        exact ⟨he, fun _ c _ _ => rfl⟩
      | Unopened f =>
        cases ct with
        | Mine =>
          have he : open_cell ⟨GameStatus.InProgress, g⟩ p
              = some ⟨GameStatus.Lost,
                      setCell g p.1 p.2 ⟨CellType.Mine, CellState.Opened⟩⟩ := by
            simp [open_cell, hc]
          rw [he] at h
          obtain rfl := Option.some_inj.mp h
          refine ⟨rfl, fun _ c hc' hcs => ?_⟩
          obtain rfl : Cell.mk CellType.Mine (CellState.Unopened f) = c :=
            Option.some_inj.mp hc'
          exact absurd hcs (by simp)
        | Empty n =>
          have he : open_cell ⟨GameStatus.InProgress, g⟩ p
              = some ⟨if is_game_won (setCell g p.1 p.2 ⟨CellType.Empty n, CellState.Opened⟩)
                      then GameStatus.Won else GameStatus.InProgress,
                      setCell g p.1 p.2 ⟨CellType.Empty n, CellState.Opened⟩⟩ := by
            simp [open_cell, hc]
          rw [he] at h
          obtain rfl := Option.some_inj.mp h
          refine ⟨?_, fun _ c hc' hcs => ?_⟩
          · cases hwon : is_game_won (setCell g p.1 p.2 ⟨CellType.Empty n, CellState.Opened⟩) with
            | true => rfl
            | false =>
              have hc2 : cellAt (setCell g p.1 p.2 ⟨CellType.Empty n, CellState.Opened⟩) p.1 p.2
                  = some ⟨CellType.Empty n, CellState.Opened⟩ :=
                cellAt_setCell_self _ hc
              simp [open_cell, hc2]
          · obtain rfl : Cell.mk (CellType.Empty n) (CellState.Unopened f) = c :=
              Option.some_inj.mp hc'
            exact absurd hcs (by simp)

/-- Witness for C6: re-opening an opened cell of an in-progress board. -/
theorem open_cell_idem_witness :
    open_cell { status := GameStatus.InProgress,
                grid := [[{ cell_type := CellType.Empty 0, state := CellState.Opened },
                          { cell_type := CellType.Empty 0,
                            state := CellState.Unopened Flag.Unflagged }]] } (0, 0)
      = some { status := GameStatus.InProgress,
               grid := [[{ cell_type := CellType.Empty 0, state := CellState.Opened },
                         { cell_type := CellType.Empty 0,
                           state := CellState.Unopened Flag.Unflagged }]] } ∧
    ({ status := GameStatus.InProgress,
       grid := [[{ cell_type := CellType.Empty 0, state := CellState.Opened },
                 { cell_type := CellType.Empty 0,
                   state := CellState.Unopened Flag.Unflagged }]] } : GameState)
      = { status := GameStatus.InProgress,
          grid := [[{ cell_type := CellType.Empty 0, state := CellState.Opened },
                    { cell_type := CellType.Empty 0,
                      state := CellState.Unopened Flag.Unflagged }]] } := by
  have h := open_cell_idem
    { status := GameStatus.InProgress,
      grid := [[{ cell_type := CellType.Empty 0, state := CellState.Opened },
                { cell_type := CellType.Empty 0,
                  state := CellState.Unopened Flag.Unflagged }]] }
    { status := GameStatus.InProgress,
      grid := [[{ cell_type := CellType.Empty 0, state := CellState.Opened },
                { cell_type := CellType.Empty 0,
                  state := CellState.Unopened Flag.Unflagged }]] }
    (0, 0) (by decide)
  exact ⟨h.1, h.2 rfl { cell_type := CellType.Empty 0, state := CellState.Opened }
    (by decide) rfl⟩

/-- C7 (amended): the result of flagging an in-bounds cell of an
`InProgress` state is never `Lost`; it is `InProgress` or `Won` (the latter
is possible, see the counterexample). -/
theorem change_flag_never_lost (s : GameState) (p : Point) (f : Flag) (s' : GameState)
    (hs : s.status = GameStatus.InProgress)
    (h : change_flag s p f = some s') :
    s'.status ≠ GameStatus.Lost ∧
    (s'.status = GameStatus.InProgress ∨ s'.status = GameStatus.Won) := by
  obtain ⟨st, g⟩ := s
  obtain rfl : st = GameStatus.InProgress := hs
  cases hc : cellAt g p.1 p.2 with
  | none =>
    rw [show change_flag ⟨GameStatus.InProgress, g⟩ p f = none by
      simp [change_flag, hc]] at h
    exact Option.noConfusion h
  | some cell =>
    obtain ⟨ct, cst⟩ := cell
    cases cst with
    | Opened =>
      rw [show change_flag ⟨GameStatus.InProgress, g⟩ p f
          = some ⟨GameStatus.InProgress, g⟩ by simp [change_flag, hc]] at h
      obtain rfl := Option.some_inj.mp h
      exact ⟨by simp, Or.inl rfl⟩
    | Unopened f₀ =>
      rw [show change_flag ⟨GameStatus.InProgress, g⟩ p f
          = some ⟨if is_game_won (setCell g p.1 p.2 ⟨ct, CellState.Unopened f⟩)
                  then GameStatus.Won else GameStatus.InProgress,
                  setCell g p.1 p.2 ⟨ct, CellState.Unopened f⟩⟩ by
        simp [change_flag, hc]] at h
      obtain rfl := Option.some_inj.mp h
      cases is_game_won (setCell g p.1 p.2 ⟨ct, CellState.Unopened f⟩) with
      | true => exact ⟨by simp, Or.inr (by simp)⟩
      | false => exact ⟨by simp, Or.inl (by simp)⟩

/-- Witness for C7's amended theorem: flagging the only (empty, unopened)
cell of a 1×1 board keeps the game going. -/
theorem change_flag_never_lost_witness :
    (({ status := GameStatus.InProgress,
        grid := [[{ cell_type := CellType.Empty 0,
                    state := CellState.Unopened Flag.Sure }]] } : GameState)).status
        ≠ GameStatus.Lost ∧
    ((({ status := GameStatus.InProgress,
         grid := [[{ cell_type := CellType.Empty 0,
                     state := CellState.Unopened Flag.Sure }]] } : GameState)).status
        = GameStatus.InProgress ∨
     (({ status := GameStatus.InProgress,
         grid := [[{ cell_type := CellType.Empty 0,
                     state := CellState.Unopened Flag.Sure }]] } : GameState)).status
        = GameStatus.Won) :=
  change_flag_never_lost
    { status := GameStatus.InProgress,
      grid := [[{ cell_type := CellType.Empty 0,
                  state := CellState.Unopened Flag.Unflagged }]] }
    (0, 0) Flag.Sure
    { status := GameStatus.InProgress,
      grid := [[{ cell_type := CellType.Empty 0,
                  state := CellState.Unopened Flag.Sure }]] }
    rfl (by decide)

/-- Counterexample to C7 as stated: on the reachable initial 1×1 board with
one mine (the only possible draw for `initial_state(1, 1, 1)`), the status
is `InProgress`, yet flagging the single cell changes the status to `Won`
(because `change_flag` re-runs `is_game_won`, which is true on an all-mine
grid). -/
theorem change_flag_won_cex :
    (initial_state 1 1 [(0, 0)]).status = GameStatus.InProgress ∧
    (change_flag (initial_state 1 1 [(0, 0)]) (0, 0) Flag.Sure).map GameState.status
      = some GameStatus.Won := by decide

theorem frameRel_refl (st st' : GameStatus) (g : List (List Cell)) (x y : Nat) :
    FrameRel ⟨st, g⟩ ⟨st', g⟩ x y :=
  ⟨rfl, fun _ => rfl, fun _ _ _ => rfl, rfl⟩

theorem frameRel_setCell {g : List (List Cell)} {x y : Nat} {cell : Cell} (c : Cell)
    (hc : cellAt g x y = some cell) (hct : c.cell_type = cell.cell_type)
    (st st' : GameStatus) :
    FrameRel ⟨st, g⟩ ⟨st', setCell g x y c⟩ x y := by
  obtain ⟨row, hrow, hcx⟩ := cellAt_eq_some_iff.mp hc
  have hylt : y < g.length := (List.getElem?_eq_some_iff.mp hrow).1
  have hgetD : g.getD y [] = row := by simp [List.getD_eq_getElem?_getD, hrow]
  refine ⟨length_setCell g x y c, fun i => ?_, fun a b hab => cellAt_setCell_ne c hab, ?_⟩
  · by_cases hi : i = y
    · subst hi
      have h1 : (setCell g x i c)[i]? = some ((g.getD i []).set x c) := by
        unfold setCell
        exact List.getElem?_set_self (by simpa using hylt)
      rw [h1, hrow, hgetD]
      simp
    · unfold setCell
      rw [List.getElem?_set_ne (fun hyy => hi hyy.symm)]
  · rw [cellAt_setCell_self c hc, hc]
    simp [hct]

/-- C8: for an `InProgress` state, `open_cell` and `change_flag` preserve
the grid dimensions, leave every cell other than the target unchanged, and
preserve the target cell's content — only its reveal state may change. -/
theorem frame_property (s : GameState) (x y : Nat) (f : Flag)
    (hs : s.status = GameStatus.InProgress) :
    (∀ s', open_cell s (x, y) = some s' → FrameRel s s' x y) ∧
    (∀ s', change_flag s (x, y) f = some s' → FrameRel s s' x y) := by
  obtain ⟨st, g⟩ := s
  obtain rfl : st = GameStatus.InProgress := hs
  constructor
  · intro s' h
    cases hc : cellAt g x y with
    | none =>
      rw [show open_cell ⟨GameStatus.InProgress, g⟩ (x, y) = none by
        simp [open_cell, hc]] at h
      exact Option.noConfusion h
    | some cell =>
      obtain ⟨ct, cst⟩ := cell
      cases cst with
      | Opened =>
        rw [show open_cell ⟨GameStatus.InProgress, g⟩ (x, y)
            = some ⟨GameStatus.InProgress, g⟩ by simp [open_cell, hc]] at h
        obtain rfl := Option.some_inj.mp h
        exact frameRel_refl _ _ g x y
      | Unopened f₀ =>
        cases ct with
        | Mine =>
          rw [show open_cell ⟨GameStatus.InProgress, g⟩ (x, y)
              = some ⟨GameStatus.Lost,
                      setCell g x y ⟨CellType.Mine, CellState.Opened⟩⟩ by
            simp [open_cell, hc]] at h
          obtain rfl := Option.some_inj.mp h
          exact frameRel_setCell ⟨CellType.Mine, CellState.Opened⟩ hc rfl _ _
        | Empty n =>
          rw [show open_cell ⟨GameStatus.InProgress, g⟩ (x, y)
              = some ⟨if is_game_won (setCell g x y ⟨CellType.Empty n, CellState.Opened⟩)
                      then GameStatus.Won else GameStatus.InProgress,
                      setCell g x y ⟨CellType.Empty n, CellState.Opened⟩⟩ by
            simp [open_cell, hc]] at h
          obtain rfl := Option.some_inj.mp h
          exact frameRel_setCell ⟨CellType.Empty n, CellState.Opened⟩ hc rfl _ _
  · intro s' h
    cases hc : cellAt g x y with
    | none =>
      rw [show change_flag ⟨GameStatus.InProgress, g⟩ (x, y) f = none by
        simp [change_flag, hc]] at h
      exact Option.noConfusion h
    | some cell =>
      obtain ⟨ct, cst⟩ := cell
      cases cst with
      | Opened =>
        rw [show change_flag ⟨GameStatus.InProgress, g⟩ (x, y) f
            = some ⟨GameStatus.InProgress, g⟩ by simp [change_flag, hc]] at h
        obtain rfl := Option.some_inj.mp h
        exact frameRel_refl _ _ g x y
      | Unopened f₀ =>
        rw [show change_flag ⟨GameStatus.InProgress, g⟩ (x, y) f
            = some ⟨if is_game_won (setCell g x y ⟨ct, CellState.Unopened f⟩)
                    then GameStatus.Won else GameStatus.InProgress,
                    setCell g x y ⟨ct, CellState.Unopened f⟩⟩ by
          simp [change_flag, hc]] at h
        obtain rfl := Option.some_inj.mp h
        exact frameRel_setCell ⟨ct, CellState.Unopened f⟩ hc rfl _ _

/-- Witness for C8: opening the first cell of a 1×2 board with a flagged
second cell. -/
theorem frame_property_witness :
    (∀ s', open_cell { status := GameStatus.InProgress,
                       grid := [[{ cell_type := CellType.Empty 0,
                                   state := CellState.Unopened Flag.Unflagged },
                                 { cell_type := CellType.Empty 0,
                                   state := CellState.Unopened Flag.Sure }]] } (0, 0)
        = some s' →
      FrameRel { status := GameStatus.InProgress,
                 grid := [[{ cell_type := CellType.Empty 0,
                             state := CellState.Unopened Flag.Unflagged },
                           { cell_type := CellType.Empty 0,
                             state := CellState.Unopened Flag.Sure }]] } s' 0 0) ∧
    (∀ s', change_flag { status := GameStatus.InProgress,
                         grid := [[{ cell_type := CellType.Empty 0,
                                     state := CellState.Unopened Flag.Unflagged },
                                   { cell_type := CellType.Empty 0,
                                     state := CellState.Unopened Flag.Sure }]] } (0, 0)
              Flag.Unsure
        = some s' →
      FrameRel { status := GameStatus.InProgress,
                 grid := [[{ cell_type := CellType.Empty 0,
                             state := CellState.Unopened Flag.Unflagged },
                           { cell_type := CellType.Empty 0,
                             state := CellState.Unopened Flag.Sure }]] } s' 0 0) :=
  frame_property
    { status := GameStatus.InProgress,
      grid := [[{ cell_type := CellType.Empty 0,
                  state := CellState.Unopened Flag.Unflagged },
                { cell_type := CellType.Empty 0,
                  state := CellState.Unopened Flag.Sure }]] }
    0 0 Flag.Unsure rfl

/-! ### The adjacency resolver -/

theorem mem_rangeFromTo {a b m : Nat} : m ∈ rangeFromTo a b ↔ a ≤ m ∧ m < b := by
  unfold rangeFromTo
  rw [List.mem_range'_1]
  omega

theorem rangeFromTo_nodup (a b : Nat) : (rangeFromTo a b).Nodup := by
  unfold rangeFromTo
  exact List.nodup_range' _ _

theorem if_zero_sub_one (x : Nat) : (if x = 0 then 0 else x - 1) = x - 1 := by
  split <;> omega

theorem countP_decide_eq_one {α : Type} [DecidableEq α] {l : List α} {a : α}
    (hnd : l.Nodup) (ha : a ∈ l) :
    l.countP (fun b => decide (b = a)) = 1 := by
  induction l with
  | nil => cases ha
  | cons c l ih =>
    rw [List.countP_cons]
    rcases List.mem_cons.mp ha with rfl | hmem
    · have hnotin : a ∉ l := (List.nodup_cons.mp hnd).1
      have hzero : l.countP (fun b => decide (b = a)) = 0 := by
        rw [List.countP_eq_zero]
        intro b hb
        simp only [decide_eq_true_eq]
        exact fun hbc => hnotin (hbc ▸ hb)
      simp [hzero]
    · have hca : c ≠ a := by
        rintro rfl
        exact (List.nodup_cons.mp hnd).1 hmem
      have hrec := ih (List.nodup_cons.mp hnd).2 hmem
      simp [hrec, hca]

theorem mem_find_adjacent {x y w h : Nat} (hx : x < w) (hy : y < h) (a b : Nat) :
    (a, b) ∈ find_adjacent x y w h ↔
      (x - 1 ≤ a ∧ a ≤ min (w - 1) (x + 1) ∧ y - 1 ≤ b ∧ b ≤ min (h - 1) (y + 1)
        ∧ ¬(a = x ∧ b = y)) := by
  unfold find_adjacent
  rw [List.mem_filter, List.mem_product, if_zero_sub_one, if_zero_sub_one,
    mem_rangeFromTo, mem_rangeFromTo]
  simp only [Bool.or_eq_true, bne_iff_ne, ne_eq]
  omega

theorem find_adjacent_nodup (x y w h : Nat) : (find_adjacent x y w h).Nodup :=
  List.Nodup.filter _
    (List.Nodup.product (rangeFromTo_nodup _ _) (rangeFromTo_nodup _ _))

theorem find_adjacent_length {x y w h : Nat} (hx : x < w) (hy : y < h) :
    (find_adjacent x y w h).length
      = (min (x + 2) w - (x - 1)) * (min (y + 2) h - (y - 1)) - 1 := by
  unfold find_adjacent
  rw [if_zero_sub_one, if_zero_sub_one]
  have hmem : ((x, y) : Point) ∈
      rangeFromTo (x - 1) (min (x + 2) w) ×ˢ rangeFromTo (y - 1) (min (y + 2) h) := by
    rw [List.mem_product, mem_rangeFromTo, mem_rangeFromTo]
    omega
  have hnd : (rangeFromTo (x - 1) (min (x + 2) w)
      ×ˢ rangeFromTo (y - 1) (min (y + 2) h)).Nodup :=
    List.Nodup.product (rangeFromTo_nodup _ _) (rangeFromTo_nodup _ _)
  have hfc : (rangeFromTo (x - 1) (min (x + 2) w)
        ×ˢ rangeFromTo (y - 1) (min (y + 2) h)).filter (fun p => x != p.1 || y != p.2)
      = (rangeFromTo (x - 1) (min (x + 2) w)
        ×ˢ rangeFromTo (y - 1) (min (y + 2) h)).filter (fun p => p != (x, y)) := by
    apply List.filter_congr
    rintro ⟨a, b⟩ _
    rw [Bool.eq_iff_iff]
    simp only [Bool.or_eq_true, bne_iff_ne, ne_eq, Prod.mk.injEq, not_and]
    tauto
  rw [hfc]
  have hcnt : (rangeFromTo (x - 1) (min (x + 2) w)
        ×ˢ rangeFromTo (y - 1) (min (y + 2) h)).countP (fun p : Point => decide (p = (x, y)))
      = 1 := countP_decide_eq_one hnd hmem
  have hne : ((rangeFromTo (x - 1) (min (x + 2) w)
        ×ˢ rangeFromTo (y - 1) (min (y + 2) h)).filter (fun p => p != (x, y))).length
      = (rangeFromTo (x - 1) (min (x + 2) w)
        ×ˢ rangeFromTo (y - 1) (min (y + 2) h)).countP (fun a => !(a == (x, y))) := by
    rw [← List.countP_eq_length_filter]
    apply List.countP_congr
    intro q _
    simp [bne]
  rw [hne]
  have hlp : (rangeFromTo (x - 1) (min (x + 2) w)
        ×ˢ rangeFromTo (y - 1) (min (y + 2) h)).length
      = (min (x + 2) w - (x - 1)) * (min (y + 2) h - (y - 1)) := by
    rw [List.length_product]
    unfold rangeFromTo
    rw [List.length_range', List.length_range']
  have hsplit2 : (rangeFromTo (x - 1) (min (x + 2) w)
        ×ˢ rangeFromTo (y - 1) (min (y + 2) h)).length
      = (rangeFromTo (x - 1) (min (x + 2) w)
          ×ˢ rangeFromTo (y - 1) (min (y + 2) h)).countP (fun a => !(a == (x, y)))
        + (rangeFromTo (x - 1) (min (x + 2) w)
          ×ˢ rangeFromTo (y - 1) (min (y + 2) h)).countP
            (fun a : Point => decide ¬((!(a == (x, y))) = true)) :=
    List.length_eq_countP_add_countP _ _
  have halign : (rangeFromTo (x - 1) (min (x + 2) w)
        ×ˢ rangeFromTo (y - 1) (min (y + 2) h)).countP
          (fun a : Point => decide ¬((!(a == (x, y))) = true))
      = (rangeFromTo (x - 1) (min (x + 2) w)
        ×ˢ rangeFromTo (y - 1) (min (y + 2) h)).countP (fun p : Point => decide (p = (x, y))) := by
    apply List.countP_congr
    intro q _
    simp
  rw [halign, hcnt] at hsplit2
  omega

/-- C4: `find_adjacent` returns exactly the in-bounds coordinates of the
3×3 block around `(x, y)` clipped at the borders, excluding `(x, y)`
itself, and for `w, h ≥ 3` it has 3 elements at a corner, 5 on a
non-corner edge and 8 in the interior. -/
theorem find_adjacent_spec (x y w h : Nat) (hx : x < w) (hy : y < h) :
    (∀ a b, (a, b) ∈ find_adjacent x y w h ↔
       (x - 1 ≤ a ∧ a ≤ min (w - 1) (x + 1) ∧ y - 1 ≤ b ∧ b ≤ min (h - 1) (y + 1)
         ∧ ¬(a = x ∧ b = y)))
    ∧ (x, y) ∉ find_adjacent x y w h
    ∧ (∀ q ∈ find_adjacent x y w h, q.1 < w ∧ q.2 < h)
    ∧ (3 ≤ w → 3 ≤ h →
        (find_adjacent x y w h).length =
          if (x = 0 ∨ x = w - 1) ∧ (y = 0 ∨ y = h - 1) then 3
          else if x = 0 ∨ x = w - 1 ∨ y = 0 ∨ y = h - 1 then 5
          else 8) := by
  refine ⟨fun a b => mem_find_adjacent hx hy a b, ?_, ?_, ?_⟩
  · intro hmem
    rw [mem_find_adjacent hx hy] at hmem
    exact hmem.2.2.2.2 ⟨rfl, rfl⟩
  · rintro ⟨a, b⟩ hq
    rw [mem_find_adjacent hx hy] at hq
    exact ⟨by show a < w; omega, by show b < h; omega⟩
  · intro h3w h3h
    rw [find_adjacent_length hx hy]
    have hxf : min (x + 2) w - (x - 1) = if x = 0 ∨ x = w - 1 then 2 else 3 := by
      split <;> omega
    have hyf : min (y + 2) h - (y - 1) = if y = 0 ∨ y = h - 1 then 2 else 3 := by
      split <;> omega
    rw [hxf, hyf]
    split_ifs <;> first | rfl | omega

/-- Witness for C4 at the center of a 3×3 board. -/
theorem find_adjacent_spec_witness :
    ((1, 1) : Point) ∉ find_adjacent 1 1 3 3 ∧ (find_adjacent 1 1 3 3).length = 8 := by
  have h := find_adjacent_spec 1 1 3 3 (by decide) (by decide)
  refine ⟨h.2.1, ?_⟩
  have h8 := h.2.2.2 (by decide) (by decide)
  simpa using h8

/-! ### The rejection-sampling loop of `random_coordinates` -/

theorem foldl_rcInsert (draws : List Point) :
    ∀ s : Finset Point, draws.foldl rcInsert s = s ∪ draws.toFinset := by
  induction draws with
  | nil => intro s; simp
  | cons d draws ih =>
    intro s
    rw [List.foldl_cons, ih (rcInsert s d), List.toFinset_cons]
    unfold rcInsert
    rw [Finset.insert_union, Finset.union_insert]

theorem rcAccum_eq_toFinset (draws : List Point) : rcAccum draws = draws.toFinset := by
  unfold rcAccum
  rw [foldl_rcInsert draws ∅, Finset.empty_union]

/-- C9: `random_coordinates` never checks `count` against the grid size.
If `count > width*height`, after consuming any finite sequence of
(in-bounds) draws the accumulated set is still smaller than `count`, so
the `while coordinates.len() < count` loop can never exit; if
`count ≤ width*height` there is a draw sequence after which the loop
condition is satisfied. -/
theorem random_coordinates_loop_spec (count width height : Nat) :
    (width * height < count →
      ∀ draws : List Point, (∀ d ∈ draws, d.1 < width ∧ d.2 < height) →
        (rcAccum draws).card < count)
    ∧ (count ≤ width * height →
      ∃ draws : List Point, (∀ d ∈ draws, d.1 < width ∧ d.2 < height) ∧
        (rcAccum draws).card = count) := by
  constructor
  · intro hlt draws hin
    rw [rcAccum_eq_toFinset]
    have hsub : draws.toFinset ⊆ Finset.range width ×ˢ Finset.range height := by
      intro q hq
      rw [List.mem_toFinset] at hq
      rw [Finset.mem_product, Finset.mem_range, Finset.mem_range]
      exact hin q hq
    have hcard := Finset.card_le_card hsub
    rw [Finset.card_product, Finset.card_range, Finset.card_range] at hcard
    omega
  · intro hle
    refine ⟨(Finset.range width ×ˢ Finset.range height).toList.take count, ?_, ?_⟩
    · intro d hd
      have hmem : d ∈ Finset.range width ×ˢ Finset.range height := by
        rw [← Finset.mem_toList]
        exact List.mem_of_mem_take hd
      rw [Finset.mem_product, Finset.mem_range, Finset.mem_range] at hmem
      exact hmem
    · rw [rcAccum_eq_toFinset]
      have hnd : ((Finset.range width ×ˢ Finset.range height).toList.take count).Nodup :=
        List.Nodup.sublist (List.take_sublist _ _) (Finset.nodup_toList _)
      rw [List.toFinset_card_of_nodup hnd, List.length_take, Finset.length_toList,
        Finset.card_product, Finset.card_range, Finset.card_range]
      omega

/-- Witness for C9: with `count = 2` on a 1×1 grid the loop guard stays
true after any draws; with `count = 1` it can be satisfied. -/
theorem random_coordinates_loop_spec_witness :
    (rcAccum [(0, 0), (0, 0)]).card < 2 ∧
    ∃ draws : List Point, (∀ d ∈ draws, d.1 < 1 ∧ d.2 < 1) ∧ (rcAccum draws).card = 1 :=
  ⟨(random_coordinates_loop_spec 2 1 1).1 (by decide) [(0, 0), (0, 0)] (by decide),
   (random_coordinates_loop_spec 1 1 1).2 (by decide)⟩

/-! ### Flag noninterference -/

theorem wonCell_flagEq {c₁ c₂ : Cell} (h : CellFlagEq c₁ c₂) :
    wonCell c₁ = wonCell c₂ := by
  obtain ⟨ct₁, st₁⟩ := c₁
  obtain ⟨ct₂, st₂⟩ := c₂
  obtain ⟨hct, hst⟩ := h
  obtain rfl : ct₁ = ct₂ := hct
  cases st₁ with
  | Opened =>
    obtain rfl : st₂ = CellState.Opened := hst.mp rfl
    rfl
  | Unopened f₁ =>
    cases st₂ with
    | Opened => exact absurd (hst.mpr rfl) (by simp)
    | Unopened f₂ => cases ct₁ <;> rfl

theorem rowAll_flagEq {r₁ r₂ : List Cell} (hr : List.Forall₂ CellFlagEq r₁ r₂) :
    r₁.all wonCell = r₂.all wonCell := by
  induction hr with
  | nil => rfl
  | cons hc _ ih => rw [List.all_cons, List.all_cons, wonCell_flagEq hc, ih]

theorem is_game_won_flagEq {g₁ g₂ : List (List Cell)} (hg : GridFlagEq g₁ g₂) :
    is_game_won g₁ = is_game_won g₂ := by
  unfold is_game_won
  induction hg with
  | nil => rfl
  | cons hr _ ih =>
    rw [List.flatten_cons, List.flatten_cons, List.all_append, List.all_append,
      rowAll_flagEq hr, ih]

theorem forall₂_getElem? {α β : Type} {R : α → β → Prop} {l₁ : List α} {l₂ : List β}
    (h : List.Forall₂ R l₁ l₂) (i : Nat) :
    (l₁[i]? = none ∧ l₂[i]? = none) ∨
      ∃ a b, l₁[i]? = some a ∧ l₂[i]? = some b ∧ R a b := by
  induction h generalizing i with
  | nil => exact Or.inl ⟨rfl, rfl⟩
  | cons hab _ ih =>
    cases i with
    | zero => exact Or.inr ⟨_, _, by simp, by simp, hab⟩
    | succ j => simpa using ih j

theorem forall₂_set {α β : Type} {R : α → β → Prop} {l₁ : List α} {l₂ : List β}
    {a : α} {b : β} (h : List.Forall₂ R l₁ l₂) (hab : R a b) :
    ∀ i : Nat, List.Forall₂ R (l₁.set i a) (l₂.set i b) := by
  induction h with
  | nil => intro i; exact List.Forall₂.nil
  | cons hcd htail ih =>
    intro i
    cases i with
    | zero => exact List.Forall₂.cons hab htail
    | succ j => exact List.Forall₂.cons hcd (ih j)

theorem cellAt_flagEq {g₁ g₂ : List (List Cell)} (hg : GridFlagEq g₁ g₂) (x y : Nat) :
    (cellAt g₁ x y = none ∧ cellAt g₂ x y = none) ∨
      ∃ c₁ c₂, cellAt g₁ x y = some c₁ ∧ cellAt g₂ x y = some c₂ ∧ CellFlagEq c₁ c₂ := by
  rcases forall₂_getElem? hg y with ⟨h1, h2⟩ | ⟨r₁, r₂, h1, h2, hr⟩
  · left
    unfold cellAt
    rw [h1, h2]
    exact ⟨rfl, rfl⟩
  · unfold cellAt
    rw [h1, h2]
    simp only [Option.some_bind]
    exact forall₂_getElem? hr x

theorem setCell_flagEq {g₁ g₂ : List (List Cell)} {x y : Nat} {c₁ c₂ : Cell}
    (hg : GridFlagEq g₁ g₂) (hc : CellFlagEq c₁ c₂) :
    GridFlagEq (setCell g₁ x y c₁) (setCell g₂ x y c₂) := by
  unfold setCell
  have hrowrel : List.Forall₂ CellFlagEq (g₁.getD y []) (g₂.getD y []) := by
    rcases forall₂_getElem? hg y with ⟨h1, h2⟩ | ⟨r₁, r₂, h1, h2, hr⟩
    · simp [List.getD_eq_getElem?_getD, h1, h2]
    · simpa [List.getD_eq_getElem?_getD, h1, h2] using hr
  exact forall₂_set hg (forall₂_set hrowrel hc x) y

/-- C10: flags never influence outcomes: on two grids identical except for
flags on unopened cells, `is_game_won` agrees, and `open_cell` from states
with equal status produces states with equal status (and aborts together,
if out of bounds). -/
theorem flag_noninterference (s₁ s₂ : GameState) (p : Point)
    (hst : s₁.status = s₂.status) (hg : GridFlagEq s₁.grid s₂.grid) :
    is_game_won s₁.grid = is_game_won s₂.grid ∧
    (open_cell s₁ p).map GameState.status = (open_cell s₂ p).map GameState.status := by
  refine ⟨is_game_won_flagEq hg, ?_⟩
  obtain ⟨st₁, g₁⟩ := s₁
  obtain ⟨st₂, g₂⟩ := s₂
  obtain rfl : st₁ = st₂ := hst
  cases st₁ with
  | Lost => rfl
  | Won => rfl
  | InProgress =>
    rcases cellAt_flagEq hg p.1 p.2 with ⟨h1, h2⟩ | ⟨c₁, c₂, h1, h2, hcc⟩
    · simp [open_cell, h1, h2]
    · obtain ⟨ct₁, cst₁⟩ := c₁
      obtain ⟨ct₂, cst₂⟩ := c₂
      obtain ⟨hct, hstate⟩ := hcc
      obtain rfl : ct₁ = ct₂ := hct
      cases cst₁ with
      | Opened =>
        obtain rfl : cst₂ = CellState.Opened := hstate.mp rfl
        simp [open_cell, h1, h2]
      | Unopened f₁ =>
        obtain ⟨f₂, rfl⟩ : ∃ f₂, cst₂ = CellState.Unopened f₂ := by
          cases cst₂ with
          | Opened => exact absurd (hstate.mpr rfl) (by simp)
          | Unopened f₂ => exact ⟨f₂, rfl⟩
        cases ct₁ with
        | Mine => simp [open_cell, h1, h2]
        | Empty n =>
          have hgw : is_game_won (setCell g₁ p.1 p.2 ⟨CellType.Empty n, CellState.Opened⟩)
              = is_game_won (setCell g₂ p.1 p.2 ⟨CellType.Empty n, CellState.Opened⟩) :=
            is_game_won_flagEq (setCell_flagEq hg ⟨rfl, Iff.rfl⟩)
          simp [open_cell, h1, h2, hgw]

/-- Witness for C10 on two 1×1 boards differing only in the flag. -/
theorem flag_noninterference_witness :
    is_game_won [[{ cell_type := CellType.Mine,
                    state := CellState.Unopened Flag.Unflagged }]]
      = is_game_won [[{ cell_type := CellType.Mine,
                        state := CellState.Unopened Flag.Sure }]] ∧
    (open_cell { status := GameStatus.InProgress,
                 grid := [[{ cell_type := CellType.Mine,
                             state := CellState.Unopened Flag.Unflagged }]] } (0, 0)).map
        GameState.status
      = (open_cell { status := GameStatus.InProgress,
                     grid := [[{ cell_type := CellType.Mine,
                                 state := CellState.Unopened Flag.Sure }]] } (0, 0)).map
          GameState.status :=
  flag_noninterference
    { status := GameStatus.InProgress,
      grid := [[{ cell_type := CellType.Mine, state := CellState.Unopened Flag.Unflagged }]] }
    { status := GameStatus.InProgress,
      grid := [[{ cell_type := CellType.Mine, state := CellState.Unopened Flag.Sure }]] }
    (0, 0) rfl
    (List.Forall₂.cons (List.Forall₂.cons ⟨rfl, by simp⟩ List.Forall₂.nil) List.Forall₂.nil)

/-! ### Grid generation: shape and pointwise characterisation -/

theorem cellAtD_getElem {g : List (List Cell)} {x y : Nat} (hy : y < g.length)
    (hx : x < g[y].length) : cellAtD g x y = g[y][x] := by
  unfold cellAtD
  simp only [List.getD_eq_getElem?_getD]
  rw [List.getElem?_eq_getElem hy]
  simp only [Option.getD_some]
  rw [List.getElem?_eq_getElem hx]
  simp

theorem cellAt_of_shape {w h : Nat} {g : List (List Cell)} (hs : gridShape w h g)
    {x y : Nat} (hx : x < w) (hy : y < h) :
    cellAt g x y = some (cellAtD g x y) := by
  obtain ⟨hlen, hrows⟩ := hs
  have hylt : y < g.length := by omega
  have hrl : g[y].length = w := hrows _ (List.getElem_mem hylt)
  have hxlt : x < g[y].length := by omega
  unfold cellAt
  rw [List.getElem?_eq_getElem hylt]
  simp only [Option.some_bind]
  rw [List.getElem?_eq_getElem hxlt, cellAtD_getElem hylt hxlt]

theorem gridShape_setCell {w h : Nat} {g : List (List Cell)} (hs : gridShape w h g)
    {y : Nat} (hy : y < h) (x : Nat) (c : Cell) :
    gridShape w h (setCell g x y c) := by
  obtain ⟨hlen, hrows⟩ := hs
  refine ⟨by simp [setCell, hlen], ?_⟩
  intro row hrow
  rcases List.mem_or_eq_of_mem_set hrow with hmem | rfl
  · exact hrows _ hmem
  · have hylt : y < g.length := by omega
    rw [List.length_set, List.getD_eq_getElem?_getD, List.getElem?_eq_getElem hylt]
    simp only [Option.getD_some]
    exact hrows _ (List.getElem_mem hylt)

theorem incAdjacent_self {w h : Nat} {g : List (List Cell)} (hs : gridShape w h g)
    {q : Point} (hq1 : q.1 < w) (hq2 : q.2 < h) :
    cellAt (incAdjacent g q) q.1 q.2 = some (bump (cellAtD g q.1 q.2)) := by
  have hc := cellAt_of_shape hs hq1 hq2
  unfold incAdjacent bump
  cases hct : (cellAtD g q.1 q.2).cell_type with
  | Empty n => exact cellAt_setCell_self _ hc
  | Mine => exact hc

theorem incAdjacent_ne {g : List (List Cell)} {q : Point} {x y : Nat}
    (hne : ¬(x = q.1 ∧ y = q.2)) :
    cellAt (incAdjacent g q) x y = cellAt g x y := by
  unfold incAdjacent
  cases hct : (cellAtD g q.1 q.2).cell_type with
  | Empty n => exact cellAt_setCell_ne _ hne
  | Mine => rfl

theorem gridShape_incAdjacent {w h : Nat} {g : List (List Cell)} (hs : gridShape w h g)
    {q : Point} (hq2 : q.2 < h) :
    gridShape w h (incAdjacent g q) := by
  unfold incAdjacent
  cases hct : (cellAtD g q.1 q.2).cell_type with
  | Empty n => exact gridShape_setCell hs hq2 _ _
  | Mine => exact hs

theorem cellAtD_of_cellAt {w h : Nat} {g : List (List Cell)} (hs : gridShape w h g)
    {x y : Nat} (hx : x < w) (hy : y < h) {c : Cell}
    (hc : cellAt g x y = some c) : cellAtD g x y = c :=
  Option.some_inj.mp ((cellAt_of_shape hs hx hy).symm.trans hc)

theorem foldl_incAdjacent_spec {w h : Nat} (adj : List Point) :
    ∀ g : List (List Cell), gridShape w h g →
      adj.Nodup → (∀ q ∈ adj, q.1 < w ∧ q.2 < h) →
      gridShape w h (adj.foldl incAdjacent g) ∧
      ∀ x y, x < w → y < h →
        cellAtD (adj.foldl incAdjacent g) x y
          = if (x, y) ∈ adj then bump (cellAtD g x y) else cellAtD g x y := by
  induction adj with
  | nil =>
    intro g hs _ _
    exact ⟨hs, fun x y hx hy => by simp⟩
  | cons a rest ih =>
    intro g hs hnd hin
    obtain ⟨a1, a2⟩ := a
    have ha := hin (a1, a2) (List.mem_cons_self _ _)
    have hs' : gridShape w h (incAdjacent g (a1, a2)) := gridShape_incAdjacent hs ha.2
    have hanotin : (a1, a2) ∉ rest := (List.nodup_cons.mp hnd).1
    obtain ⟨hsh, hcell⟩ := ih (incAdjacent g (a1, a2)) hs' (List.nodup_cons.mp hnd).2
      (fun q hq => hin q (List.mem_cons_of_mem _ hq))
    rw [List.foldl_cons]
    refine ⟨hsh, fun x y hx hy => ?_⟩
    rw [hcell x y hx hy]
    by_cases hxy : (x, y) = (a1, a2)
    · injection hxy with h1 h2
      subst h1
      subst h2
      rw [if_neg (by simpa using hanotin), if_pos (List.mem_cons_self _ _)]
      exact cellAtD_of_cellAt hs' hx hy (incAdjacent_self hs ha.1 ha.2)
    · have hcomp : ¬(x = a1 ∧ y = a2) := by
        intro ⟨hx1, hy1⟩
        exact hxy (by rw [hx1, hy1])
      have heq : cellAtD (incAdjacent g (a1, a2)) x y = cellAtD g x y :=
        cellAtD_of_cellAt hs' hx hy
          ((incAdjacent_ne hcomp).trans (cellAt_of_shape hs hx hy))
      rw [heq]
      by_cases hr : (x, y) ∈ rest
      · rw [if_pos hr, if_pos (List.mem_cons_of_mem _ hr)]
      · rw [if_neg hr, if_neg (by simp [hxy, hr])]

theorem find_adjacent_bounds {x y w h : Nat} (hx : x < w) (hy : y < h) :
    ∀ q ∈ find_adjacent x y w h, q.1 < w ∧ q.2 < h := by
  rintro ⟨a, b⟩ hq
  rw [mem_find_adjacent hx hy] at hq
  exact ⟨by show a < w; omega, by show b < h; omega⟩

theorem not_self_mem_find_adjacent {x y w h : Nat} (hx : x < w) (hy : y < h) :
    (x, y) ∉ find_adjacent x y w h := by
  intro hmem
  rw [mem_find_adjacent hx hy] at hmem
  exact hmem.2.2.2.2 ⟨rfl, rfl⟩

theorem genCell_state (w h : Nat) (mines : List Point) (x y : Nat) :
    (genCell w h mines x y).state = CellState.Unopened Flag.Unflagged := by
  unfold genCell
  split <;> rfl

theorem initGrid_shape (w h : Nat) : gridShape w h (initGrid w h) := by
  refine ⟨by simp [initGrid], ?_⟩
  intro row hrow
  rw [List.eq_of_mem_replicate hrow]
  simp

theorem cellAtD_initGrid {w h x y : Nat} (hx : x < w) (hy : y < h) :
    cellAtD (initGrid w h) x y = genCell w h [] x y := by
  unfold initGrid cellAtD genCell
  simp only [List.getD_eq_getElem?_getD, List.getElem?_replicate_of_lt hy,
    Option.getD_some, List.getElem?_replicate_of_lt hx]
  simp [emptyCell]

theorem injectMine_spec {w h : Nat} {g : List (List Cell)} {done : List Point}
    (hs : gridShape w h g)
    (hc : ∀ x y, x < w → y < h → cellAtD g x y = genCell w h done x y)
    {m : Point} (hm1 : m.1 < w) (hm2 : m.2 < h) (hmnew : m ∉ done) :
    gridShape w h (injectMine w h g m) ∧
    ∀ x y, x < w → y < h →
      cellAtD (injectMine w h g m) x y = genCell w h (done ++ [m]) x y := by
  obtain ⟨m1, m2⟩ := m
  have hg1shape : gridShape w h
      (setCell g m1 m2 { cellAtD g m1 m2 with cell_type := CellType.Mine }) :=
    gridShape_setCell hs hm2 _ _
  have hmcell : cellAtD g m1 m2 = genCell w h done m1 m2 := hc m1 m2 hm1 hm2
  have hg1at : cellAtD (setCell g m1 m2 { cellAtD g m1 m2 with cell_type := CellType.Mine }) m1 m2
      = { cellAtD g m1 m2 with cell_type := CellType.Mine } :=
    cellAtD_of_cellAt hg1shape hm1 hm2 (cellAt_setCell_self _ (cellAt_of_shape hs hm1 hm2))
  have hg1ne : ∀ x y, ¬(x = m1 ∧ y = m2) → x < w → y < h →
      cellAtD (setCell g m1 m2 { cellAtD g m1 m2 with cell_type := CellType.Mine }) x y
        = cellAtD g x y := fun x y hne hx hy =>
    cellAtD_of_cellAt hg1shape hx hy
      ((cellAt_setCell_ne _ hne).trans (cellAt_of_shape hs hx hy))
  obtain ⟨hfs, hfc⟩ := foldl_incAdjacent_spec (find_adjacent m1 m2 w h)
    (setCell g m1 m2 { cellAtD g m1 m2 with cell_type := CellType.Mine }) hg1shape
    (find_adjacent_nodup m1 m2 w h) (find_adjacent_bounds hm1 hm2)
  refine ⟨hfs, fun x y hx hy => ?_⟩
  show cellAtD ((find_adjacent m1 m2 w h).foldl incAdjacent
      (setCell g m1 m2 { cellAtD g m1 m2 with cell_type := CellType.Mine })) x y
    = genCell w h (done ++ [(m1, m2)]) x y
  rw [hfc x y hx hy]
  by_cases hxym : x = m1 ∧ y = m2
  · obtain ⟨rfl, rfl⟩ := hxym
    rw [if_neg (not_self_mem_find_adjacent hm1 hm2), hg1at, hmcell]
    unfold genCell
    rw [if_neg hmnew, if_pos (by simp : ((x, y) : Point) ∈ done ++ [(x, y)])]
  · rw [hg1ne x y hxym hx hy, hc x y hx hy]
    by_cases hdone : ((x, y) : Point) ∈ done
    · have hL : genCell w h done x y
          = { cell_type := CellType.Mine, state := CellState.Unopened Flag.Unflagged } := by
        unfold genCell
        rw [if_pos hdone]
      have hR : genCell w h (done ++ [(m1, m2)]) x y
          = { cell_type := CellType.Mine, state := CellState.Unopened Flag.Unflagged } := by
        unfold genCell
        rw [if_pos (List.mem_append_left _ hdone)]
      rw [hL, hR]
      by_cases hadj : ((x, y) : Point) ∈ find_adjacent m1 m2 w h
      · rw [if_pos hadj]
        rfl
      · rw [if_neg hadj]
    · have hnotapp : ((x, y) : Point) ∉ done ++ [(m1, m2)] := by
        intro hmm
        rcases List.mem_append.mp hmm with hl | hr
        · exact hdone hl
        · simp only [List.mem_singleton, Prod.mk.injEq] at hr
          exact hxym hr
      have hL : genCell w h done x y
          = { cell_type := CellType.Empty
                (done.countP fun mm => decide ((x, y) ∈ find_adjacent mm.1 mm.2 w h)),
              state := CellState.Unopened Flag.Unflagged } := by
        unfold genCell
        rw [if_neg hdone]
      have hR : genCell w h (done ++ [(m1, m2)]) x y
          = { cell_type := CellType.Empty
                ((done ++ [(m1, m2)]).countP
                  fun mm => decide ((x, y) ∈ find_adjacent mm.1 mm.2 w h)),
              state := CellState.Unopened Flag.Unflagged } := by
        unfold genCell
        rw [if_neg hnotapp]
      rw [hL, hR, List.countP_append, List.countP_singleton]
      by_cases hadj : ((x, y) : Point) ∈ find_adjacent m1 m2 w h
      · rw [if_pos hadj, if_pos (by simpa using hadj)]
        rfl
      · rw [if_neg hadj, if_neg (by simpa using hadj), Nat.add_zero]

theorem foldl_injectMine_spec (w h : Nat) :
    ∀ (rest done : List Point), (done ++ rest).Nodup →
      (∀ q ∈ done ++ rest, q.1 < w ∧ q.2 < h) →
      ∀ g : List (List Cell), gridShape w h g →
        (∀ x y, x < w → y < h → cellAtD g x y = genCell w h done x y) →
        gridShape w h (rest.foldl (injectMine w h) g) ∧
        ∀ x y, x < w → y < h →
          cellAtD (rest.foldl (injectMine w h) g) x y = genCell w h (done ++ rest) x y := by
  intro rest
  induction rest with
  | nil =>
    intro done hnd hin g hs hc
    rw [List.foldl_nil]
    refine ⟨hs, fun x y hx hy => ?_⟩
    rw [hc x y hx hy, List.append_nil]
  | cons m rest ih =>
    intro done hnd hin g hs hc
    have hm := hin m (by simp)
    have hmnot : m ∉ done := by
      intro hmem
      exact List.disjoint_of_nodup_append hnd hmem (by simp)
    obtain ⟨hs1, hc1⟩ := injectMine_spec hs hc hm.1 hm.2 hmnot
    rw [List.foldl_cons]
    have hassoc : done ++ m :: rest = (done ++ [m]) ++ rest := by simp
    obtain ⟨hs2, hc2⟩ := ih (done ++ [m])
      (by rw [← hassoc]; exact hnd)
      (by rw [← hassoc]; exact hin)
      (injectMine w h g m) hs1 hc1
    refine ⟨hs2, fun x y hx hy => ?_⟩
    rw [hc2 x y hx hy, ← hassoc]

/-- The grid produced by `initial_state`, cell by cell. -/
theorem initial_state_cells (w h : Nat) (mines : List Point)
    (hnd : mines.Nodup) (hin : ∀ q ∈ mines, q.1 < w ∧ q.2 < h) :
    gridShape w h (initial_state w h mines).grid ∧
    ∀ x y, x < w → y < h →
      cellAtD (initial_state w h mines).grid x y = genCell w h mines x y := by
  obtain ⟨hs, hc⟩ := foldl_injectMine_spec w h mines [] (by simpa using hnd)
    (by simpa using hin) (initGrid w h) (initGrid_shape w h)
    (fun x y hx hy => cellAtD_initGrid hx hy)
  exact ⟨hs, fun x y hx hy => by rw [show (initial_state w h mines).grid
    = mines.foldl (injectMine w h) (initGrid w h) from rfl, hc x y hx hy]; simp⟩

theorem flatten_cell_coords {w h : Nat} {g : List (List Cell)} (hs : gridShape w h g)
    {c : Cell} (hc : c ∈ g.flatten) :
    ∃ x y, x < w ∧ y < h ∧ cellAtD g x y = c := by
  rw [List.mem_flatten] at hc
  obtain ⟨row, hrowg, hcrow⟩ := hc
  obtain ⟨y, hy, rfl⟩ := List.mem_iff_getElem.mp hrowg
  obtain ⟨x, hx, rfl⟩ := List.mem_iff_getElem.mp hcrow
  have hrl := hs.2 _ (List.getElem_mem hy)
  have hlen := hs.1
  exact ⟨x, y, by omega, by omega, cellAtD_getElem hy hx⟩

theorem grid_eq_spec {w h : Nat} {g : List (List Cell)} (hs : gridShape w h g)
    (f : Nat → Nat → Cell)
    (hc : ∀ x y, x < w → y < h → cellAtD g x y = f x y) :
    g = (List.range h).map fun y => (List.range w).map fun x => f x y := by
  have hlen := hs.1
  apply List.ext_getElem?
  intro y
  rw [List.getElem?_map]
  by_cases hy : y < h
  · rw [List.getElem?_range hy]
    have hylt : y < g.length := by omega
    have hrl : g[y].length = w := hs.2 _ (List.getElem_mem hylt)
    rw [List.getElem?_eq_getElem hylt, Option.map_some']
    congr 1
    apply List.ext_getElem?
    intro x
    rw [List.getElem?_map]
    by_cases hx : x < w
    · rw [List.getElem?_range hx]
      have hxlt : x < g[y].length := by omega
      rw [List.getElem?_eq_getElem hxlt, Option.map_some', ← cellAtD_getElem hylt hxlt,
        hc x y hx hy]
    · have h1 : (List.range w)[x]? = none :=
        List.getElem?_eq_none (by simpa using Nat.le_of_not_lt hx)
      have h2 : g[y][x]? = none := List.getElem?_eq_none (by omega)
      rw [h1, h2]
      rfl
  · have h1 : (List.range h)[y]? = none :=
      List.getElem?_eq_none (by simpa using Nat.le_of_not_lt hy)
    have h2 : g[y]? = none := List.getElem?_eq_none (by omega)
    rw [h1, h2]
    rfl

theorem countP_flatten_map (f : Nat → Nat → Cell) (w h : Nat) (p : Cell → Bool) :
    ((List.range h).map fun y => (List.range w).map fun x => f x y).flatten.countP p
      = ((List.range h).map fun y => (List.range w).countP fun x => p (f x y)).sum := by
  rw [List.countP_flatten, List.map_map]
  congr 1
  apply List.map_congr_left
  intro y _
  simp only [Function.comp_apply]
  rw [List.countP_map]
  rfl

theorem countP_ptsList (w h : Nat) (q : Point → Bool) :
    (ptsList w h).countP q
      = ((List.range h).map fun y => (List.range w).countP fun x => q (x, y)).sum := by
  unfold ptsList
  rw [List.flatMap, List.countP_flatten, List.map_map]
  congr 1
  apply List.map_congr_left
  intro y _
  simp only [Function.comp_apply]
  rw [List.countP_map]
  rfl

theorem ptsList_nodup (w h : Nat) : (ptsList w h).Nodup := by
  have hrw : ptsList w h = (List.range h ×ˢ List.range w).map Prod.swap := by
    show _ = (List.product (List.range h) (List.range w)).map Prod.swap
    unfold ptsList List.product
    rw [List.map_flatMap]
    apply congrArg
    funext y
    rw [List.map_map]
    apply List.map_congr_left
    intro x _
    rfl
  rw [hrw]
  exact List.Nodup.map Prod.swap_injective
    (List.Nodup.product (List.nodup_range _) (List.nodup_range _))

theorem mem_ptsList {w h : Nat} {q : Point} : q ∈ ptsList w h ↔ q.1 < w ∧ q.2 < h := by
  unfold ptsList
  rw [List.mem_flatMap]
  constructor
  · rintro ⟨y, hy, hq⟩
    rw [List.mem_map] at hq
    obtain ⟨x, hx, rfl⟩ := hq
    exact ⟨by simpa using List.mem_range.mp hx, by simpa using List.mem_range.mp hy⟩
  · rintro ⟨h1, h2⟩
    exact ⟨q.2, List.mem_range.mpr h2, List.mem_map.mpr ⟨q.1, List.mem_range.mpr h1, by simp⟩⟩

theorem countP_mem_of_subset {l₁ l₂ : List Point} (h₁ : l₁.Nodup) (h₂ : l₂.Nodup)
    (hsub : ∀ a ∈ l₂, a ∈ l₁) :
    l₁.countP (fun a => decide (a ∈ l₂)) = l₂.length := by
  rw [List.countP_eq_length_filter]
  have hnd : (l₁.filter fun a => decide (a ∈ l₂)).Nodup := h₁.filter _
  have hfin : (l₁.filter fun a => decide (a ∈ l₂)).toFinset = l₂.toFinset := by
    ext a
    simp only [List.mem_toFinset, List.mem_filter, decide_eq_true_eq]
    exact ⟨fun ha => ha.2, fun ha => ⟨hsub a ha, ha⟩⟩
  calc (l₁.filter fun a => decide (a ∈ l₂)).length
      = (l₁.filter fun a => decide (a ∈ l₂)).toFinset.card :=
        (List.toFinset_card_of_nodup hnd).symm
    _ = l₂.toFinset.card := by rw [hfin]
    _ = l₂.length := List.toFinset_card_of_nodup h₂

theorem countP_mem_comm {l₁ l₂ : List Point} (h₁ : l₁.Nodup) (h₂ : l₂.Nodup) :
    l₁.countP (fun a => decide (a ∈ l₂)) = l₂.countP (fun a => decide (a ∈ l₁)) := by
  rw [List.countP_eq_length_filter, List.countP_eq_length_filter]
  have e1 : (l₁.filter fun a => decide (a ∈ l₂)).toFinset = l₁.toFinset ∩ l₂.toFinset := by
    ext a
    simp [List.mem_filter, and_comm]
  have e2 : (l₂.filter fun a => decide (a ∈ l₁)).toFinset = l₁.toFinset ∩ l₂.toFinset := by
    ext a
    simp [List.mem_filter, and_comm]
  rw [← List.toFinset_card_of_nodup (h₁.filter _), ← List.toFinset_card_of_nodup (h₂.filter _),
    e1, e2]

theorem find_adjacent_length_le {x y w h : Nat} (hx : x < w) (hy : y < h) :
    (find_adjacent x y w h).length ≤ 8 := by
  rw [find_adjacent_length hx hy]
  have h1 : min (x + 2) w - (x - 1) ≤ 3 := by omega
  have h2 : min (y + 2) h - (y - 1) ≤ 3 := by omega
  have := Nat.mul_le_mul h1 h2
  omega

theorem find_adjacent_symm {x y a b w h : Nat} (hx : x < w) (hy : y < h)
    (ha : a < w) (hb : b < h) :
    ((a, b) ∈ find_adjacent x y w h) ↔ ((x, y) ∈ find_adjacent a b w h) := by
  rw [mem_find_adjacent hx hy, mem_find_adjacent ha hb]
  omega

theorem genCell_isMine (w h : Nat) (mines : List Point) (x y : Nat) :
    decide ((genCell w h mines x y).cell_type = CellType.Mine)
      = decide ((x, y) ∈ mines) := by
  unfold genCell
  by_cases hmem : (x, y) ∈ mines
  · rw [if_pos hmem]
    simp [hmem]
  · rw [if_neg hmem]
    simp [hmem]

theorem genCell_perm {w h x y : Nat} {l₁ l₂ : List Point} (hp : l₁.Perm l₂) :
    genCell w h l₁ x y = genCell w h l₂ x y := by
  unfold genCell
  rw [List.Perm.countP_eq _ hp]
  by_cases hmem : (x, y) ∈ l₁
  · rw [if_pos hmem, if_pos (hp.mem_iff.mp hmem)]
  · rw [if_neg hmem, if_neg fun hc => hmem (hp.mem_iff.mpr hc)]

/-- C2: for any dimensions, any admissible outcome of the random draws
(a duplicate-free list of in-bounds coordinates) and any processing order,
`initial_state` yields status `InProgress`, every cell unopened and
unflagged, exactly as many `Mine` cells as drawn coordinates, and every
`Empty` cell counting exactly the mines among its `find_adjacent`
neighbors (hence between 0 and 8); the resulting cells do not depend on
the order of the draw list. -/
theorem initial_state_spec (w h : Nat) (mines : List Point)
    (_hw : 1 ≤ w) (_hh : 1 ≤ h)
    (hnd : mines.Nodup) (hin : ∀ m ∈ mines, m.1 < w ∧ m.2 < h) :
    (initial_state w h mines).status = GameStatus.InProgress
    ∧ (∀ c ∈ (initial_state w h mines).grid.flatten,
        c.state = CellState.Unopened Flag.Unflagged)
    ∧ ((initial_state w h mines).grid.flatten.countP
        fun c => decide (c.cell_type = CellType.Mine)) = mines.length
    ∧ (∀ x y c n, x < w → y < h →
        cellAt (initial_state w h mines).grid x y = some c →
        c.cell_type = CellType.Empty n →
        n = ((find_adjacent x y w h).countP fun q => decide (q ∈ mines))
          ∧ 0 ≤ n ∧ n ≤ 8)
    ∧ (∀ mines₂, mines.Perm mines₂ → ∀ x y, x < w → y < h →
        cellAt (initial_state w h mines₂).grid x y
          = cellAt (initial_state w h mines).grid x y) := by
  obtain ⟨hs, hc⟩ := initial_state_cells w h mines hnd hin
  refine ⟨rfl, ?_, ?_, ?_, ?_⟩
  · intro c hcmem
    obtain ⟨x, y, hx, hy, hxy⟩ := flatten_cell_coords hs hcmem
    rw [← hxy, hc x y hx hy]
    exact genCell_state w h mines x y
  · rw [grid_eq_spec hs _ hc, countP_flatten_map]
    have hmapeq : ∀ y ∈ List.range h,
        ((List.range w).countP fun x =>
            decide ((genCell w h mines x y).cell_type = CellType.Mine))
          = ((List.range w).countP fun x => decide ((x, y) ∈ mines)) := by
      intro y _
      apply List.countP_congr
      intro x _
      rw [genCell_isMine]
    rw [List.map_congr_left hmapeq, ← countP_ptsList w h fun q => decide (q ∈ mines)]
    exact countP_mem_of_subset (ptsList_nodup w h) hnd
      fun a ha => mem_ptsList.mpr (hin a ha)
  · intro x y c n hx hy hcell hct
    have hcd : cellAtD (initial_state w h mines).grid x y = c :=
      cellAtD_of_cellAt hs hx hy hcell
    rw [hc x y hx hy] at hcd
    by_cases hmem : ((x, y) : Point) ∈ mines
    · rw [← hcd] at hct
      unfold genCell at hct
      rw [if_pos hmem] at hct
      exact absurd hct (by simp)
    · rw [← hcd] at hct
      unfold genCell at hct
      rw [if_neg hmem] at hct
      simp only [CellType.Empty.injEq] at hct
      have hstep1 : (mines.countP fun m => decide ((x, y) ∈ find_adjacent m.1 m.2 w h))
          = mines.countP fun m => decide (m ∈ find_adjacent x y w h) := by
        apply List.countP_congr
        rintro ⟨a, b⟩ hm
        have hab := hin (a, b) hm
        simp only [decide_eq_true_eq]
        exact find_adjacent_symm hab.1 hab.2 hx hy
      have hstep2 : (mines.countP fun m => decide (m ∈ find_adjacent x y w h))
          = (find_adjacent x y w h).countP fun q => decide (q ∈ mines) :=
        countP_mem_comm hnd (find_adjacent_nodup x y w h)
      refine ⟨by rw [← hct, hstep1, hstep2], Nat.zero_le n, ?_⟩
      rw [← hct, hstep1, hstep2]
      exact Nat.le_trans (List.countP_le_length _) (find_adjacent_length_le hx hy)
  · intro mines₂ hp x y hx hy
    have hnd₂ : mines₂.Nodup := hp.nodup hnd
    have hin₂ : ∀ m ∈ mines₂, m.1 < w ∧ m.2 < h := fun m hm =>
      hin m (hp.mem_iff.mpr hm)
    obtain ⟨hs₂, hc₂⟩ := initial_state_cells w h mines₂ hnd₂ hin₂
    rw [cellAt_of_shape hs hx hy, cellAt_of_shape hs₂ hx hy, hc x y hx hy, hc₂ x y hx hy,
      genCell_perm hp]

/-- Witness for C2 with a 2×2 board and one mine at the origin. -/
theorem initial_state_spec_witness :
    (initial_state 2 2 [(0, 0)]).status = GameStatus.InProgress ∧
    ((initial_state 2 2 [(0, 0)]).grid.flatten.countP
      fun c => decide (c.cell_type = CellType.Mine)) = 1 := by
  have hspec := initial_state_spec 2 2 [(0, 0)] (by decide) (by decide) (by decide)
    (by decide)
  exact ⟨hspec.1, hspec.2.2.1⟩

end RustyMines
